import Mathlib

/-!
Verification development for the binG workflow coordinators
(`src/workflows/{chaining,parallel,router,evaluator}.py`).

The Python sources are shallowly embedded: Python `float` is modelled as `ℚ`,
Python dicts as insertion-ordered association lists (`List (String × _)`),
fallible Python code as `Except`, and the external HTTP boundary (the
`httpx` round trip) as an oracle function supplied to each operation.
`datetime` timestamps are external clock reads and are not part of any
modelled record.
-/

namespace BinG

/-! ## Python string / dict primitives -/

/-- `needle` occurs at the head of `hay` (kernel of Python's `in`). -/
def subAt : List Char → List Char → Bool
  | [], _ => true
  | _ :: _, [] => false
  | n :: ns, h :: hs => n == h && subAt ns hs

/-- `needle` occurs somewhere in `hay`. -/
def subSearch (needle : List Char) : List Char → Bool
  | [] => needle.isEmpty
  | c :: hs => subAt needle (c :: hs) || subSearch needle hs

/-- Python `sub in hay` for strings (substring containment). -/
def pyContains (hay sub : String) : Bool :=
  subSearch sub.toList hay.toList

/-- Python `str.lower()` (ASCII case folding, as in the inputs at hand). -/
def pyLower (s : String) : String :=
  String.mk (s.toList.map Char.toLower)

/-- Worker for `pySplit`: accumulates the current word (reversed). -/
def pySplitAux : List Char → List Char → List String
  | [], acc => if acc.isEmpty then [] else [String.mk acc.reverse]
  | c :: cs, acc =>
    if c.isWhitespace then
      if acc.isEmpty then pySplitAux cs []
      else String.mk acc.reverse :: pySplitAux cs []
    else pySplitAux cs (c :: acc)

/-- Python `str.split()` with no argument: split on whitespace runs,
dropping empty pieces. -/
def pySplit (s : String) : List String :=
  pySplitAux s.toList []

/-- Python `str.count(c)` for a single-character needle. -/
def countChar (s : String) (c : Char) : Nat :=
  (s.toList.filter fun d => d == c).length

/-- Python dict assignment `m[k] = v`: overwrite in place if the key is
present (keeping its position), otherwise append at the end. -/
def pyDictInsert {β : Type} : List (String × β) → String → β → List (String × β)
  | [], k, v => [(k, v)]
  | (k', v') :: rest, k, v =>
    if k' == k then (k', v) :: rest else (k', v') :: pyDictInsert rest k v

/-- A JSON object from the completion endpoint, flattened to its string
fields; the coordinators only ever read string-valued keys such as
`content`. -/
abbrev Resp : Type := List (String × String)

/-- Python `str(result)` fallback rendering of a response dict (only its
determinism matters to the coordinators, never its exact shape). -/
def Resp.render (r : Resp) : String :=
  String.intercalate ", " (r.map fun p => p.1 ++ ": " ++ p.2)

/-- Python `dict.get(k)` on a response. -/
def Resp.get? (r : Resp) (k : String) : Option String :=
  List.lookup k r

/-! ## Evaluator (`src/workflows/evaluator.py`) -/

/-- `EvaluationMetric` enum. -/
inductive EvaluationMetric
  | accuracy | completeness | relevance | clarity | correctness | safety | custom
deriving DecidableEq

/-- `EvaluationMetric.value`. -/
def EvaluationMetric.value : EvaluationMetric → String
  | .accuracy => "accuracy"
  | .completeness => "completeness"
  | .relevance => "relevance"
  | .clarity => "clarity"
  | .correctness => "correctness"
  | .safety => "safety"
  | .custom => "custom"

/-- Context dict passed to `evaluate` (string-valued fields). -/
abbrev EvalCtx : Type := List (String × String)

/-- A user-supplied custom evaluator; `Except.error` models the Python
callable raising. -/
abbrev CustomEval : Type := String → Option String → EvalCtx → Except String ℚ

/-- `EvaluatorConfig`. -/
structure EvaluatorConfig where
  metrics : List EvaluationMetric
  threshold : ℚ := 7/10
  use_llm_judge : Bool := true
  custom_evaluators : List (String × CustomEval) := []

/-- The method names defined on the Python class `AgentEvaluator`
(attribute lookup on `self` resolves against this set). -/
def agentEvaluatorMethods : List String :=
  ["__init__", "evaluate", "evaluate_with_llm", "_build_judge_prompt",
   "_evaluate_heuristic", "_evaluate_custom", "compare_outputs", "close"]

/-- Python exceptions that escape `evaluate`. -/
inductive PyError
  | attributeError (missing : String)
deriving DecidableEq

/-- Digits to a natural number. -/
def digitsToNat (ds : List Char) : Nat :=
  ds.foldl (fun n c => n * 10 + (c.toNat - 48)) 0

/-- Value of `\d+\.?\d*` given its integer and fractional digit runs. -/
def numFromDigits (intPart fracPart : List Char) : ℚ :=
  (digitsToNat intPart : ℚ) + (digitsToNat fracPart : ℚ) / ((10 : ℚ) ^ fracPart.length)

/-- First match of `re.search(r"(\d+\.?\d*)", s)` over the character list,
parsed with Python `float`. -/
def extractScoreAux : List Char → Option ℚ
  | [] => none
  | c :: cs =>
    if c.isDigit then
      let intDigits := (c :: cs).takeWhile Char.isDigit
      let rest := (c :: cs).dropWhile Char.isDigit
      match rest with
      | '.' :: rest2 => some (numFromDigits intDigits (rest2.takeWhile Char.isDigit))
      | _ => some (numFromDigits intDigits [])
    else extractScoreAux cs

/-- Numeric-score extraction used by the judge path. -/
def extractScore (s : String) : Option ℚ :=
  extractScoreAux s.toList

/-- `evaluate_with_llm` (the judge call, lines 92-140): the oracle is the
HTTP outcome — `.error` for a raised exception, `.ok none` when the response
JSON has no `content` key (so `result.get("content", "0.5")` yields `"0.5"`),
`.ok (some text)` otherwise. -/
def evaluateWithLlm (resp : Except String (Option String)) : ℚ :=
  match resp with
  | .error _ => 1/2
  | .ok c =>
    let score_text := c.getD "0.5"
    match extractScore score_text with
    | some v => min (max v 0) 1
    | none => 1/2

/-- `_evaluate_heuristic` (lines 175-222). -/
def evaluateHeuristic (output : String) (expected : Option String)
    (metric : EvaluationMetric) : ℚ :=
  match metric with
  | .completeness =>
    let s : ℚ :=
      (if output.length > 50 then 3/10 else 0) +
      (if output.length > 200 then 3/10 else 0) +
      (if countChar output '\n' > 2 then 2/10 else 0) +
      (if ["1.", "2.", "-", "*"].any (fun m => pyContains output m) then 2/10 else 0)
    min s 1
  | .clarity =>
    let words := pySplit output
    let s : ℚ := 1/2 +
      (if words.length > 10 then 2/10 else 0) +
      (if countChar output '.' > 1 then 1/10 else 0) +
      (if !(["???", "...", "unclear"].any fun m => pyContains output m) then 2/10 else 0)
    min s 1
  | .accuracy =>
    match expected with
    | some e =>
      if e.isEmpty then 1/2  -- falsy `expected` falls through to the default branch
      else
        let output_words := (pySplit (pyLower output)).dedup
        let expected_words := (pySplit (pyLower e)).dedup
        if expected_words.isEmpty then 1/2
        else
          ((output_words.filter fun w => expected_words.contains w).length : ℚ) /
            (expected_words.length : ℚ)
    | none => 1/2
  | _ => 1/2

/-- `_evaluate_custom` (lines 224-239): the callable's value is returned
unmodified; a raised exception is caught and scored `0.0`. -/
def evaluateCustom (output : String) (expected : Option String) (ctx : EvalCtx)
    (f : CustomEval) : ℚ :=
  match f output expected ctx with
  | .ok v => v
  | .error _ => 0

/-- The metric loop of `evaluate` (lines 60-76), building the `scores`
dict. The judge branch calls `self._evaluate_with_llm`, an attribute the
class does not define (the method is named `evaluate_with_llm`), so that
branch raises `AttributeError`; `judge` is the per-metric HTTP oracle the
call would consume if it were reachable. -/
def evaluateLoop (cfg : EvaluatorConfig)
    (judge : EvaluationMetric → Except String (Option String))
    (output : String) (expected : Option String) (ctx : EvalCtx) :
    List EvaluationMetric → List (String × ℚ) → Except PyError (List (String × ℚ))
  | [], acc => .ok acc
  | m :: ms, acc =>
    if m = .custom then
      evaluateLoop cfg judge output expected ctx ms
        (cfg.custom_evaluators.foldl
          (fun a p => pyDictInsert a p.1 (evaluateCustom output expected ctx p.2)) acc)
    else if cfg.use_llm_judge then
      if agentEvaluatorMethods.contains "_evaluate_with_llm" then
        evaluateLoop cfg judge output expected ctx ms
          (pyDictInsert acc m.value (evaluateWithLlm (judge m)))
      else .error (.attributeError "_evaluate_with_llm")
    else
      evaluateLoop cfg judge output expected ctx ms
        (pyDictInsert acc m.value (evaluateHeuristic output expected m))

/-- The record returned by `evaluate` (timestamp omitted: it is a clock
read, not part of the score). -/
structure EvalScore where
  scores : List (String × ℚ)
  overall_score : ℚ
  passed : Bool
  threshold : ℚ
deriving DecidableEq

/-- `AgentEvaluator.evaluate` (lines 50-90). -/
def AgentEvaluator.evaluate (cfg : EvaluatorConfig)
    (judge : EvaluationMetric → Except String (Option String))
    (output : String) (expected : Option String) (ctx : EvalCtx) :
    Except PyError EvalScore :=
  (evaluateLoop cfg judge output expected ctx cfg.metrics []).map fun scores =>
    let overall : ℚ :=
      if scores.isEmpty then 0
      else (scores.map Prod.snd).sum / (scores.length : ℚ)
    { scores := scores
      overall_score := overall
      passed := decide (overall ≥ cfg.threshold)
      threshold := cfg.threshold }

/-! ## Chain executor (`src/workflows/chaining.py`) -/

/-- Output extractor of a chain step: a string key (`result.get(key, ...)`)
or an external callable. -/
inductive Extractor
  | key (k : String)
  | fn (f : Resp → String)

/-- One agent entry of `ChainConfig.agents` (fields that only shape the
HTTP payload — `model`, `temperature`, `max_tokens`, `extra_params`,
`system_prompt` — are absorbed by the call oracle). -/
structure ChainAgentConfig where
  name : Option String := none
  input_template : Option String := none
  output_extractor : Option Extractor := none

/-- `ChainConfig` (timeout absorbed by the oracle). -/
structure ChainConfig where
  agents : List ChainAgentConfig
  max_retries : Nat := 3
  pass_full_context : Bool := true
  stop_on_error : Bool := false

/-- Accumulated chain context: Python dict from step name to the full
response stored by `full_context[step_name] = result`. -/
abbrev ChainCtx : Type := List (String × Resp)

/-- The oracle for Python's `str.format` on an input template
(`template.format(input=current, **context)`); `.error` models a raised
`KeyError`/`IndexError`. -/
abbrev FmtOracle : Type := String → String → ChainCtx → Except String String

/-- `_prepare_input` (lines 107-124). -/
def prepareInput (fmt : FmtOracle) (current : String) (ctx : ChainCtx)
    (a : ChainAgentConfig) : Except String String :=
  match a.input_template with
  | some t => fmt t current ctx
  | none => .ok current

/-- `_extract_next_input` (lines 165-182). An empty-string extractor is
falsy in Python (`if output_extractor:`), so it selects the default branch. -/
def extractNextInput (resp : Resp) (a : ChainAgentConfig) : String :=
  match a.output_extractor with
  | some (.fn f) => f resp
  | some (.key k) =>
    if k.isEmpty then (resp.get? "content").getD (Resp.render resp)
    else (resp.get? k).getD ((resp.get? "content").getD "")
  | none => (resp.get? "content").getD (Resp.render resp)

/-- One entry of `chain_results`: the success dict (step, name, input,
output, metadata, timestamp) or the error dict (step, name, error,
timestamp); metadata and timestamp are opaque/external and omitted. -/
inductive StepResult
  | ok (step : Nat) (name input output : String)
  | err (step : Nat) (name error : String)
deriving DecidableEq

/-- Python `"error" in r` on a step dict. -/
def StepResult.hasError : StepResult → Bool
  | .ok .. => false
  | .err .. => true

/-- Python `r.get("output", "")` on a step dict. -/
def StepResult.outputD : StepResult → String
  | .ok _ _ _ o => o
  | .err .. => ""

/-- Execution trace of the `for idx, agent_config in enumerate(...)` loop:
the appended step records, the running input observed at entry to each
visited step, and the final context. -/
structure ChainTrace where
  records : List StepResult
  entries : List String
  ctx : ChainCtx

/-- The body of the `try` block for one step (`execute`, lines 52-64):
resolve the input (may raise), invoke the agent (may raise), and hand both
to the success path. `call idx input` is the outcome of `_execute_agent`
for step `idx`: the parsed response JSON or the exception surfaced after
retries. -/
def stepOutcome (fmt : FmtOracle) (call : Nat → String → Except String Resp)
    (idx : Nat) (cur : String) (ctx : ChainCtx) (a : ChainAgentConfig) :
    Except String (String × Resp) :=
  match prepareInput fmt cur ctx a with
  | .error e => .error e
  | .ok inp =>
    match call idx inp with
    | .error e => .error e
    | .ok resp => .ok (inp, resp)

/-- The chain loop (`execute`, lines 48-98). -/
def chainLoop (fmt : FmtOracle) (call : Nat → String → Except String Resp)
    (stop_on_error pass_full_context : Bool) :
    List ChainAgentConfig → Nat → String → ChainCtx → ChainTrace
  | [], _, _, ctx => ⟨[], [], ctx⟩
  | a :: rest, idx, cur, ctx =>
    let step_name := a.name.getD ("step_" ++ toString idx)
    match stepOutcome fmt call idx cur ctx a with
    | .ok (inp, resp) =>
      let recok : StepResult := .ok idx step_name inp ((resp.get? "content").getD "")
      let ctx2 := if pass_full_context then pyDictInsert ctx step_name resp else ctx
      let next := extractNextInput resp a
      let t := chainLoop fmt call stop_on_error pass_full_context rest (idx + 1) next ctx2
      ⟨recok :: t.records, cur :: t.entries, t.ctx⟩
    | .error e =>
      let recerr : StepResult := .err idx step_name e
      if stop_on_error then ⟨[recerr], [cur], ctx⟩
      else
        let t := chainLoop fmt call stop_on_error pass_full_context rest (idx + 1)
          ("Previous step failed: " ++ e) ctx
        ⟨recerr :: t.records, cur :: t.entries, t.ctx⟩

/-- The loop trace of one `AgentChain.execute` run. -/
def chainTraceOf (cfg : ChainConfig) (fmt : FmtOracle)
    (call : Nat → String → Except String Resp)
    (initial_input : String) (ctx0 : ChainCtx) : ChainTrace :=
  chainLoop fmt call cfg.stop_on_error cfg.pass_full_context cfg.agents 0 initial_input ctx0

/-- The dict returned by `AgentChain.execute` (lines 100-105). -/
structure ChainResult where
  success : Bool
  steps : List StepResult
  final_output : String
  context : ChainCtx

/-- `AgentChain.execute` (lines 38-105). -/
def AgentChain.execute (cfg : ChainConfig) (fmt : FmtOracle)
    (call : Nat → String → Except String Resp)
    (initial_input : String) (ctx0 : ChainCtx) : ChainResult :=
  let t := chainTraceOf cfg fmt call initial_input ctx0
  { success := t.records.all fun r => !r.hasError
    steps := t.records
    final_output :=
      match t.records.getLast? with
      | some r => r.outputD
      | none => ""
    context := t.ctx }

/-- Trace of the retry loop in `_execute_agent` (lines 149-163):
the surfaced outcome (`none` only when `max_retries = 0`, where the Python
function falls off the loop returning `None`), the number of HTTP attempts
issued, and the backoff sleeps performed, in order. -/
structure RetryTrace where
  result : Option (Except String Resp)
  attempts : Nat
  delays : List Nat

/-- The body of `for attempt in range(max_retries)`: `attemptOracle i` is
the outcome of the i-th HTTP attempt; the exception is re-raised on the
last attempt, otherwise the loop sleeps `2 ** attempt` and continues. -/
def retryList (attemptOracle : Nat → Except String Resp) : List Nat → RetryTrace
  | [] => ⟨none, 0, []⟩
  | attempt :: rest =>
    match attemptOracle attempt with
    | .ok r => ⟨some (.ok r), 1, []⟩
    | .error e =>
      if rest.isEmpty then ⟨some (.error e), 1, []⟩
      else
        let t := retryList attemptOracle rest
        ⟨t.result, t.attempts + 1, 2 ^ attempt :: t.delays⟩

/-- The retry loop of `_execute_agent` over `range(max_retries)`. -/
def executeAgentRetries (attemptOracle : Nat → Except String Resp)
    (max_retries : Nat) : RetryTrace :=
  retryList attemptOracle (List.range max_retries)

/-! ## Parallel executor (`src/workflows/parallel.py`) -/

/-- One agent entry of `ParallelConfig.agents` (payload-shaping fields
absorbed by the invocation oracle). -/
structure PAgentConfig where
  name : Option String := none
deriving DecidableEq

/-- The per-agent dict built by `_execute_agent` (lines 98-157): the
success dict carries output and duration (error absent); the failure dict
carries the error and duration 0 (output absent). Absent keys are modelled
by the `""`/`none` defaults. -/
structure POutcome where
  agent : String
  success : Bool
  output : String
  error : Option String
  duration : ℚ
deriving DecidableEq

/-- `_execute_agent`: the whole try-block is the oracle outcome
(`.ok (content, duration)` for a round trip whose JSON parsed, `.error e`
for any raised exception — formatting, transport, status or JSON). Every
exception is caught and converted into a failure dict, so this function
never raises. -/
def executeAgentP (invoke : String → Except String (String × ℚ))
    (a : PAgentConfig) : POutcome :=
  let nm := a.name.getD "unnamed"
  match invoke nm with
  | .ok (content, dur) =>
    { agent := nm, success := true, output := content, error := none, duration := dur }
  | .error e =>
    { agent := nm, success := false, output := "", error := some e, duration := 0 }

/-- `_execute_fail_fast` (lines 87-96) over the completion-ordered task
outcomes: `.error` is an exception raised by `await coro` (caught and
skipped); a returned value `r` passes the `not isinstance(result,
Exception)` test — task values are always outcome dicts, never `Exception`
instances — and is returned as the singleton result set. -/
def executeFailFast : List (Except String POutcome) → List POutcome
  | [] => []
  | .error _ :: rest => executeFailFast rest
  | .ok r :: _ => [r]

/-- The fail-fast collection phase of `ParallelAgents.execute`:
`completionOrder` lists the agents in task-completion order; each task's
value is the (never-raising) `_execute_agent` dict. -/
def failFastCollect (invoke : String → Except String (String × ℚ))
    (completionOrder : List PAgentConfig) : List POutcome :=
  executeFailFast (completionOrder.map fun a => Except.ok (executeAgentP invoke a))

/-! ## Router (`src/workflows/router.py`) -/

/-- One routing rule dict: each key is optional and every present key is
checked independently (`if "pattern" in rule: ...` etc.). -/
structure RoutingRule where
  pattern : Option String := none
  keywords : Option (List String) := none
  context_key : Option String := none
  context_value : Option String := none
  min_length : Option Nat := none
  max_length : Option Nat := none

/-- One agent entry of `RouterConfig.agents`; `name` is accessed with
`agent["name"]`, hence required. -/
structure RouterAgentConfig where
  name : String
  routing_rules : List RoutingRule := []
deriving Inhabited

/-- `RoutingStrategy` enum. -/
inductive RoutingStrategy
  | rule_based | semantic | load_balanced | adaptive
deriving DecidableEq

/-- `RouterConfig` (timeout absorbed by the oracle). -/
structure RouterConfig where
  agents : List RouterAgentConfig
  strategy : RoutingStrategy := .rule_based
  default_agent : Option String := none
  enable_fallback : Bool := true

/-- Context dict passed to `route` (string-valued fields). -/
abbrev RCtx : Type := List (String × String)

/-- The oracle for `re.search(pattern, input, re.IGNORECASE)`. -/
abbrev RegexOracle : Type := String → String → Bool

/-- Whether one rule fires in `_rule_based_selection` (lines 132-152):
pattern, keyword (case-insensitive substring), context equality
(`context.get(k) == rule.get("context_value")`, `None == None` included),
and inclusive length range (only when both bounds are present). -/
def ruleFires (regex : RegexOracle) (input : String) (ctx : RCtx)
    (r : RoutingRule) : Bool :=
  (match r.pattern with
   | some p => regex p input
   | none => false) ||
  (match r.keywords with
   | some ks => ks.any fun kw => pyContains (pyLower input) (pyLower kw)
   | none => false) ||
  (match r.context_key with
   | some k => List.lookup k ctx == r.context_value
   | none => false) ||
  (match r.min_length, r.max_length with
   | some lo, some hi => decide (lo ≤ input.length ∧ input.length ≤ hi)
   | _, _ => false)

/-- `_get_default_agent` (lines 232-239); an empty default name is falsy
in Python, selecting the first-agent branch. -/
def getDefaultAgent (agents : List RouterAgentConfig) (d : Option String) :
    Option RouterAgentConfig :=
  match d with
  | some nm =>
    if nm.isEmpty then agents.head?
    else agents.find? fun a => a.name == nm
  | none => agents.head?

/-- `_rule_based_selection` (lines 122-154): first agent in list order one
of whose rules fires, else the default agent. -/
def ruleBasedSelection (regex : RegexOracle) (agents : List RouterAgentConfig)
    (d : Option String) (input : String) (ctx : RCtx) : Option RouterAgentConfig :=
  match agents.find? (fun a => a.routing_rules.any fun r => ruleFires regex input ctx r) with
  | some a => some a
  | none => getDefaultAgent agents d

/-- The per-agent stats dict created and maintained by `_update_stats`. -/
structure PerformanceStats where
  total_requests : Nat := 0
  successful_requests : Nat := 0
  failed_requests : Nat := 0
  total_duration : ℚ := 0
  success_rate : ℚ := 0
  avg_duration : ℚ := 0
deriving DecidableEq

/-- `self.performance_stats`. -/
abbrev PerfMap : Type := List (String × PerformanceStats)

/-- `_update_stats` (lines 311-334). -/
def updateStats (perf : PerfMap) (agent : String) (success : Bool)
    (duration : ℚ) : PerfMap :=
  let s0 := (List.lookup agent perf).getD {}
  let s1 := { s0 with total_requests := s0.total_requests + 1 }
  let s2 :=
    if success then
      { s1 with successful_requests := s1.successful_requests + 1
                total_duration := s1.total_duration + duration }
    else { s1 with failed_requests := s1.failed_requests + 1 }
  let s3 := { s2 with success_rate := (s2.successful_requests : ℚ) / (s2.total_requests : ℚ) }
  let s4 :=
    if s2.successful_requests > 0 then
      { s3 with avg_duration := s3.total_duration / (s2.successful_requests : ℚ) }
    else s3
  pyDictInsert perf agent s4

/-- `_load_balanced_selection` (lines 166-178): agent with the fewest
recorded `total_requests` (0 when unseen), first encountered wins ties. -/
def loadBalancedSelection (agents : List RouterAgentConfig) (perf : PerfMap)
    (d : Option String) : Option RouterAgentConfig :=
  match agents with
  | [] => getDefaultAgent agents d
  | a :: rest =>
    let load := fun (x : RouterAgentConfig) =>
      match List.lookup x.name perf with
      | some s => s.total_requests
      | none => 0
    some (rest.foldl (fun best x => if load x < load best then x else best) a)

/-- `_matches_rules` (lines 213-230): an agent with no rules always
matches; otherwise only pattern and keyword rules are consulted. -/
def matchesRules (regex : RegexOracle) (input : String)
    (a : RouterAgentConfig) : Bool :=
  if a.routing_rules.isEmpty then true
  else a.routing_rules.any fun r =>
    (match r.pattern with
     | some p => regex p input
     | none => false) ||
    (match r.keywords with
     | some ks => ks.any fun kw => pyContains (pyLower input) (pyLower kw)
     | none => false)

/-- The ADAPTIVE score (lines 200-205): stored stats when the agent has an
entry in `performance_stats`, priors 0.5 / 10 otherwise. -/
def adaptiveScore (perf : PerfMap) (nm : String) : ℚ :=
  let sr := match List.lookup nm perf with
    | some s => s.success_rate
    | none => 1/2
  let ad := match List.lookup nm perf with
    | some s => s.avg_duration
    | none => 10
  sr * (7/10) + (1 / (ad + 1)) * (3/10)

/-- Candidate restriction of `_adaptive_selection` (lines 186-193). -/
def adaptiveCandidates (regex : RegexOracle) (agents : List RouterAgentConfig)
    (input : String) : List RouterAgentConfig :=
  let base := agents.filter fun a => matchesRules regex input a
  if base.isEmpty then agents else base

/-- `_adaptive_selection` (lines 180-211): best-score fold starting from
`(None, -1)`, strict improvement only, then `best_agent or default`. -/
def adaptiveSelection (regex : RegexOracle) (agents : List RouterAgentConfig)
    (perf : PerfMap) (d : Option String) (input : String) (_ctx : RCtx) :
    Option RouterAgentConfig :=
  let pick := (adaptiveCandidates regex agents input).foldl
    (fun (acc : Option RouterAgentConfig × ℚ) a =>
      let sc := adaptiveScore perf a.name
      if sc > acc.2 then (some a, sc) else acc)
    (none, -1)
  match pick.1 with
  | some a => some a
  | none => getDefaultAgent agents d

/-- `_select_agent` (lines 101-120); SEMANTIC defers to RULE_BASED. -/
def selectAgent (regex : RegexOracle) (cfg : RouterConfig) (perf : PerfMap)
    (input : String) (ctx : RCtx) : Option RouterAgentConfig :=
  match cfg.strategy with
  | .rule_based => ruleBasedSelection regex cfg.agents cfg.default_agent input ctx
  | .semantic => ruleBasedSelection regex cfg.agents cfg.default_agent input ctx
  | .load_balanced => loadBalancedSelection cfg.agents perf cfg.default_agent
  | .adaptive => adaptiveSelection regex cfg.agents perf cfg.default_agent input ctx

/-- The dict returned by `route` (metadata and `routing_strategy` echo
fields omitted as opaque). -/
inductive RouteResult
  | noAgent (error input : String)
  | routed (agent output : String) (fallback : Bool) (failed_agent : Option String)
  | failed (agent error input : String)
deriving DecidableEq

/-- One `route` call's observable effects: its returned dict, the final
`performance_stats`, the agents invoked (each `_execute_agent` call, in
order) and the `_update_stats` calls performed (agent, success flag,
duration), in order. -/
structure RouteTrace where
  result : RouteResult
  perf : PerfMap
  attempts : List String
  updates : List (String × Bool × ℚ)

/-- The loop of `_try_fallback` (lines 241-268): each fallback agent is
invoked in turn; a success records one stats update and returns; a raised
exception is swallowed and — notably — records no stats update. -/
def tryFallbackLoop (invoke : String → Except String (String × ℚ)) :
    List RouterAgentConfig → PerfMap →
    Option (String × String) × PerfMap × List String × List (String × Bool × ℚ)
  | [], perf => (none, perf, [], [])
  | a :: rest, perf =>
    match invoke a.name with
    | .ok (out, dur) =>
      (some (a.name, out), updateStats perf a.name true dur, [a.name], [(a.name, true, dur)])
    | .error _ =>
      let t := tryFallbackLoop invoke rest perf
      (t.1, t.2.1, a.name :: t.2.2.1, t.2.2.2)

/-- `AgentRouter.route` (lines 48-99). `invoke nm` is the outcome of
`_execute_agent` for the agent named `nm` on this call's input and
context: `.ok (output, duration)` or a raised exception. -/
def AgentRouter.route (regex : RegexOracle)
    (invoke : String → Except String (String × ℚ)) (cfg : RouterConfig)
    (perf0 : PerfMap) (input : String) (ctx : RCtx) : RouteTrace :=
  match selectAgent regex cfg perf0 input ctx with
  | none => ⟨.noAgent "No suitable agent found" input, perf0, [], []⟩
  | some sel =>
    match invoke sel.name with
    | .ok (out, dur) =>
      ⟨.routed sel.name out false none,
       updateStats perf0 sel.name true dur, [sel.name], [(sel.name, true, dur)]⟩
    | .error e =>
      let perf1 := updateStats perf0 sel.name false 0
      if cfg.enable_fallback then
        let fbs := cfg.agents.filter fun a => a.name != sel.name
        match tryFallbackLoop invoke fbs perf1 with
        | (some (nm, out), p2, ats, ups) =>
          ⟨.routed nm out true (some sel.name), p2,
           sel.name :: ats, (sel.name, false, 0) :: ups⟩
        | (none, p2, ats, ups) =>
          ⟨.failed sel.name e input, p2, sel.name :: ats, (sel.name, false, 0) :: ups⟩
      else ⟨.failed sel.name e input, perf1, [sel.name], [(sel.name, false, 0)]⟩

/-! ## Shared helper lemmas -/

/-- The Python class defines `evaluate_with_llm` but not
`_evaluate_with_llm`. -/
theorem methods_no_underscore_llm :
    agentEvaluatorMethods.contains "_evaluate_with_llm" = false := by decide

/-- A deduplicated list whose members all lie in `m` is no longer than
`m`. -/
theorem filter_contains_length_le (l m : List String) (hl : l.Nodup) :
    (l.filter fun w => m.contains w).length ≤ m.length := by
  have hnd : (l.filter fun w => m.contains w).Nodup := hl.filter _
  have hsub : ∀ x ∈ l.filter (fun w => m.contains w), x ∈ m := by
    intro x hx
    have hcx := List.of_mem_filter hx
    simpa using hcx
  calc (l.filter fun w => m.contains w).length
      = (l.filter fun w => m.contains w).toFinset.card :=
        (List.toFinset_card_of_nodup hnd).symm
    _ ≤ m.toFinset.card := by
        apply Finset.card_le_card
        intro x hx
        rw [List.mem_toFinset] at hx ⊢
        exact hsub x hx
    _ ≤ m.length := m.toFinset_card_le

/-- With the judge flag on, the metric loop raises `AttributeError` as
soon as a non-CUSTOM metric is reached. -/
theorem evaluateLoop_attribute_error (cfg : EvaluatorConfig)
    (judge : EvaluationMetric → Except String (Option String))
    (output : String) (expected : Option String) (ctx : EvalCtx)
    (hj : cfg.use_llm_judge = true) :
    ∀ (ms : List EvaluationMetric) (acc : List (String × ℚ)),
      (∃ m ∈ ms, m ≠ EvaluationMetric.custom) →
      evaluateLoop cfg judge output expected ctx ms acc
        = .error (.attributeError "_evaluate_with_llm")
  | [], _, h => by simp at h
  | m :: ms, acc, h => by
    by_cases hm : m = EvaluationMetric.custom
    · simp only [evaluateLoop, if_pos hm]
      apply evaluateLoop_attribute_error cfg judge output expected ctx hj ms
      obtain ⟨m', hm', hne⟩ := h
      rcases List.mem_cons.mp hm' with h1 | h1
      · exact absurd (h1.trans hm) hne
      · exact ⟨m', h1, hne⟩
    · simp only [evaluateLoop, if_neg hm, hj, if_pos, methods_no_underscore_llm,
        Bool.false_eq_true, if_false, if_true]

/-- With the judge flag off, the metric loop never consults the judge
oracle. -/
theorem evaluateLoop_oracle_free (cfg : EvaluatorConfig)
    (j1 j2 : EvaluationMetric → Except String (Option String))
    (output : String) (expected : Option String) (ctx : EvalCtx)
    (hj : cfg.use_llm_judge = false) :
    ∀ (ms : List EvaluationMetric) (acc : List (String × ℚ)),
      evaluateLoop cfg j1 output expected ctx ms acc
        = evaluateLoop cfg j2 output expected ctx ms acc
  | [], _ => rfl
  | m :: ms, acc => by
    by_cases hm : m = EvaluationMetric.custom
    · simp only [evaluateLoop, if_pos hm]
      exact evaluateLoop_oracle_free cfg j1 j2 output expected ctx hj ms _
    · simp only [evaluateLoop, if_neg hm, hj, Bool.false_eq_true, if_false]
      exact evaluateLoop_oracle_free cfg j1 j2 output expected ctx hj ms _

/-! ## Claim C1 -/

/-- Claim C1: with `use_llm_judge = true` and at least one non-CUSTOM
metric, `AgentEvaluator.evaluate` does NOT return an `EvaluationScore`: it
raises `AttributeError`, because the loop calls `self._evaluate_with_llm`
while the class only defines `evaluate_with_llm`. This settles the claim
as a code bug. -/
theorem evaluate_judge_path_raises (cfg : EvaluatorConfig)
    (judge : EvaluationMetric → Except String (Option String))
    (output : String) (expected : Option String) (ctx : EvalCtx)
    (m : EvaluationMetric) (hm : m ∈ cfg.metrics)
    (hmc : m ≠ EvaluationMetric.custom) (hj : cfg.use_llm_judge = true) :
    AgentEvaluator.evaluate cfg judge output expected ctx
      = .error (.attributeError "_evaluate_with_llm") := by
  unfold AgentEvaluator.evaluate
  rw [evaluateLoop_attribute_error cfg judge output expected ctx hj cfg.metrics []
    ⟨m, hm, hmc⟩]
  rfl

/-- Witness for C1 at a concrete configuration. -/
theorem evaluate_judge_path_raises_witness :
    AgentEvaluator.evaluate ⟨[.accuracy], 7/10, true, []⟩
        (fun _ => .ok (some "0.9")) "out" none []
      = .error (.attributeError "_evaluate_with_llm") :=
  evaluate_judge_path_raises _ _ _ _ _ EvaluationMetric.accuracy
    (by simp) (by decide) rfl

/-! ## Claim C5 -/

/-- A custom evaluator returning 2.0 (legal Python: any float). -/
def cfgC5 : EvaluatorConfig :=
  { metrics := [.custom], threshold := 7/10, use_llm_judge := true,
    custom_evaluators := [("big", fun _ _ _ => .ok 2)] }

/-- Claim C5 counterexample: a CUSTOM metric score is returned unclamped —
the custom evaluator returning `2.0` yields the per-metric score `2.0`,
outside `[0.0, 1.0]`. -/
theorem custom_score_escapes_unit_interval :
    AgentEvaluator.evaluate cfgC5 (fun _ => .error "judge down") "out" none []
      = .ok ⟨[("big", 2)], 2, true, 7/10⟩ ∧ ¬((2 : ℚ) ≤ 1) := by
  constructor
  · simp only [AgentEvaluator.evaluate, cfgC5, evaluateLoop, evaluateCustom, List.foldl,
      pyDictInsert, Except.map, List.isEmpty, List.map, List.sum_cons, List.sum_nil,
      List.length]
    norm_num
  · norm_num

/-- Claim C5 amended: every score produced by the heuristic path and by
the judge path lies in `[0.0, 1.0]`; custom-path scores are passed through
unclamped (0.0 only when the callable raises). -/
theorem heuristic_and_judge_scores_unit_interval :
    (∀ (output : String) (expected : Option String) (metric : EvaluationMetric),
       0 ≤ evaluateHeuristic output expected metric
         ∧ evaluateHeuristic output expected metric ≤ 1)
    ∧ (∀ resp : Except String (Option String),
       0 ≤ evaluateWithLlm resp ∧ evaluateWithLlm resp ≤ 1) := by
  constructor
  · intro output expected metric
    cases metric with
    | completeness =>
      simp only [evaluateHeuristic]
      refine ⟨le_min ?_ (by norm_num), min_le_right _ _⟩
      split_ifs <;> norm_num
    | clarity =>
      simp only [evaluateHeuristic]
      refine ⟨le_min ?_ (by norm_num), min_le_right _ _⟩
      split_ifs <;> norm_num
    | accuracy =>
      cases expected with
      | none => simp [evaluateHeuristic]; norm_num
      | some e =>
        simp only [evaluateHeuristic]
        by_cases he : e.isEmpty
        · simp [he]
          norm_num
        · by_cases hw : ((pySplit (pyLower e)).dedup).isEmpty
          · simp [he, hw]
            norm_num
          · simp only [he, hw, Bool.false_eq_true, if_false]
            have hpos : (0 : ℚ) < (((pySplit (pyLower e)).dedup).length : ℚ) := by
              have : ((pySplit (pyLower e)).dedup) ≠ [] := by
                simpa [List.isEmpty_iff] using hw
              have hlen : 0 < ((pySplit (pyLower e)).dedup).length :=
                List.length_pos.mpr this
              exact_mod_cast hlen
            constructor
            · apply div_nonneg (by positivity) (le_of_lt hpos)
            · rw [div_le_one hpos]
              have := filter_contains_length_le ((pySplit (pyLower output)).dedup)
                ((pySplit (pyLower e)).dedup) (List.nodup_dedup _)
              exact_mod_cast this
    | relevance => simp [evaluateHeuristic]; norm_num
    | correctness => simp [evaluateHeuristic]; norm_num
    | safety => simp [evaluateHeuristic]; norm_num
    | custom => simp [evaluateHeuristic]; norm_num
  · intro resp
    cases resp with
    | error e => simp [evaluateWithLlm]; norm_num
    | ok c =>
      simp only [evaluateWithLlm]
      cases extractScore (c.getD "0.5") with
      | none => simp; norm_num
      | some v =>
        simp only
        exact ⟨le_min (le_max_right v 0) (by norm_num), min_le_right _ _⟩

/-! ## Claim C9 -/

/-- Claim C9: under heuristic mode (`use_llm_judge = false`, no CUSTOM
metric) the result of `evaluate` is independent of the judge oracle — the
only effectful input — so re-evaluating the same output with the same
configuration yields an identical `EvaluationScore`. -/
theorem evaluate_heuristic_deterministic (cfg : EvaluatorConfig)
    (j1 j2 : EvaluationMetric → Except String (Option String))
    (output : String) (expected : Option String) (ctx : EvalCtx)
    (hj : cfg.use_llm_judge = false)
    (_hnc : EvaluationMetric.custom ∉ cfg.metrics) :
    AgentEvaluator.evaluate cfg j1 output expected ctx
      = AgentEvaluator.evaluate cfg j2 output expected ctx := by
  unfold AgentEvaluator.evaluate
  rw [evaluateLoop_oracle_free cfg j1 j2 output expected ctx hj cfg.metrics []]

/-- Witness for C9 at a concrete configuration and two distinct oracles. -/
theorem evaluate_heuristic_deterministic_witness :
    AgentEvaluator.evaluate ⟨[.completeness], 7/10, false, []⟩
        (fun _ => .ok (some "0.9")) "hello world" none []
      = AgentEvaluator.evaluate ⟨[.completeness], 7/10, false, []⟩
        (fun _ => .error "down") "hello world" none [] :=
  evaluate_heuristic_deterministic _ _ _ _ _ _ rfl (by decide)

/-! ## Claim C6 -/

/-- The retry loop on an always-failing oracle over a contiguous window of
attempt indices. -/
theorem retryList_all_fail (attemptOracle : Nat → Except String Resp)
    (e : Nat → String) (hfail : ∀ i, attemptOracle i = .error (e i)) :
    ∀ (len a : Nat),
      retryList attemptOracle (List.range' a (len + 1))
        = ⟨some (.error (e (a + len))), len + 1, (List.range' a len).map fun i => 2 ^ i⟩
  | 0, a => by
    simp [List.range', retryList, hfail a]
  | len + 1, a => by
    have ih := retryList_all_fail attemptOracle e hfail len (a + 1)
    have hr : List.range' a (len + 1 + 1) = a :: List.range' (a + 1) (len + 1) := rfl
    have hr2 : List.range' a (len + 1) = a :: List.range' (a + 1) len := rfl
    rw [hr, retryList, hfail a]
    have hne : (List.range' (a + 1) (len + 1)).isEmpty = false := rfl
    rw [hne]
    simp only [Bool.false_eq_true, if_false, ih, hr2, List.map]
    have harith : a + 1 + len = a + (len + 1) := by omega
    rw [harith]

/-- Claim C6 amended: on a call that never succeeds the invoker performs
exactly `max_retries` total HTTP attempts — i.e. `max_retries - 1`
retries — with backoff delays `2^attempt` for `attempt = 0 ..
max_retries - 2`, and surfaces the last attempt's failure. -/
theorem retry_attempts_and_backoff (attemptOracle : Nat → Except String Resp)
    (e : Nat → String) (max_retries : Nat) (h1 : 1 ≤ max_retries)
    (hfail : ∀ i, attemptOracle i = .error (e i)) :
    executeAgentRetries attemptOracle max_retries
      = ⟨some (.error (e (max_retries - 1))), max_retries,
         (List.range (max_retries - 1)).map fun i => 2 ^ i⟩ := by
  obtain ⟨len, rfl⟩ : ∃ len, max_retries = len + 1 :=
    ⟨max_retries - 1, by omega⟩
  unfold executeAgentRetries
  rw [List.range_eq_range', retryList_all_fail attemptOracle e hfail len 0]
  simp [List.range_eq_range']

/-- An attempt oracle that always fails. -/
def failingOracle : Nat → Except String Resp :=
  fun i => .error ("attempt " ++ toString i)

/-- Claim C6 counterexample: with `max_retries = 3` (the default) and a
call that never succeeds, the loop issues 3 attempts with backoff delays
`[1, 2]` — not the `max_retries` retries with delays `[1, 2, 4]` the claim
describes. -/
theorem retry_count_off_by_one :
    (executeAgentRetries failingOracle 3).attempts = 3
    ∧ (executeAgentRetries failingOracle 3).delays = [1, 2]
    ∧ [1, 2] ≠ [1, 2, 4] := by
  refine ⟨rfl, rfl, by decide⟩

/-- Witness for the amended C6 theorem at `max_retries = 3`. -/
theorem retry_attempts_and_backoff_witness :
    executeAgentRetries failingOracle 3
      = ⟨some (.error "attempt 2"), 3, [1, 2]⟩ := by
  have h := retry_attempts_and_backoff failingOracle
    (fun i => "attempt " ++ toString i) 3 (by norm_num) (fun _ => rfl)
  simpa using h

/-! ## Claim C3 -/

/-- Spec-side reading of the claim: the output of the last successful
step. -/
def specLastSuccessOutput (steps : List StepResult) : Option String :=
  ((steps.filter fun s => !s.hasError).getLast?).map StepResult.outputD

/-- A two-step chain whose first step succeeds and second step fails. -/
def chainCfgC3 : ChainConfig :=
  { agents := [{ name := some "a" }, { name := some "b" }] }

/-- Format oracle for template-free configurations (never consulted). -/
def fmtUnused : FmtOracle := fun _ _ _ => .error "format unused"

/-- Step oracle: step 0 succeeds with output `A-out`, step 1 raises. -/
def callC3 : Nat → String → Except String Resp :=
  fun idx _ => if idx = 0 then .ok [("content", "A-out")] else .error "boom"

/-- Claim C3 counterexample: when the final step fails, `final_output` is
`""` (from `chain_results[-1].get("output", "")`) even though the last
successful step produced `"A-out"`. -/
theorem final_output_not_last_success :
    specLastSuccessOutput (AgentChain.execute chainCfgC3 fmtUnused callC3 "in" []).steps
      = some "A-out"
    ∧ (AgentChain.execute chainCfgC3 fmtUnused callC3 "in" []).final_output = ""
    ∧ some "" ≠ some "A-out" := by
  refine ⟨rfl, rfl, by decide⟩

/-- Claim C3 amended: the result's success flag is true iff no step record
carries an error, and `final_output` equals the output field of the LAST
step record — the last successful step's output when that record
succeeded, and `""` when the chain's final record is an error. -/
theorem chain_success_flag_and_final_output (cfg : ChainConfig) (fmt : FmtOracle)
    (call : Nat → String → Except String Resp) (init : String) (ctx0 : ChainCtx) :
    ((AgentChain.execute cfg fmt call init ctx0).success = true
      ↔ ∀ s ∈ (AgentChain.execute cfg fmt call init ctx0).steps, s.hasError = false)
    ∧ ∀ s, (AgentChain.execute cfg fmt call init ctx0).steps.getLast? = some s →
        (AgentChain.execute cfg fmt call init ctx0).final_output = s.outputD := by
  constructor
  · simp [AgentChain.execute, List.all_eq_true]
  · intro s hs
    simp only [AgentChain.execute] at hs ⊢
    rw [hs]

/-- Witness for the amended C3 theorem on the concrete two-step chain. -/
theorem chain_success_flag_and_final_output_witness :
    ((AgentChain.execute chainCfgC3 fmtUnused callC3 "in" []).success = true
      ↔ ∀ s ∈ (AgentChain.execute chainCfgC3 fmtUnused callC3 "in" []).steps,
          s.hasError = false)
    ∧ (AgentChain.execute chainCfgC3 fmtUnused callC3 "in" []).final_output
        = (StepResult.err 1 "b" "boom").outputD := by
  have h := chain_success_flag_and_final_output chainCfgC3 fmtUnused callC3 "in" []
  exact ⟨h.1, h.2 (StepResult.err 1 "b" "boom") rfl⟩

/-! ## Claim C7 -/

/-- With `stop_on_error = false` the loop visits every configured step. -/
theorem chainLoop_length (fmt : FmtOracle) (call : Nat → String → Except String Resp)
    (pass : Bool) :
    ∀ (agents : List ChainAgentConfig) (idx : Nat) (cur : String) (ctx : ChainCtx),
      (chainLoop fmt call false pass agents idx cur ctx).records.length = agents.length
      ∧ (chainLoop fmt call false pass agents idx cur ctx).entries.length = agents.length
  | [], _, _, _ => ⟨rfl, rfl⟩
  | a :: rest, idx, cur, ctx => by
    have ih := fun c x => chainLoop_length fmt call pass rest (idx + 1) c x
    simp only [chainLoop]
    cases hE : stepOutcome fmt call idx cur ctx a with
    | ok p =>
      obtain ⟨inp, resp⟩ := p
      simpa using ih _ _
    | error e =>
      simpa using ih _ _

/-- The first entry of a nonempty loop run is the running input it was
started with. -/
theorem chainLoop_entries_head (fmt : FmtOracle)
    (call : Nat → String → Except String Resp) (stop pass : Bool)
    (a : ChainAgentConfig) (rest : List ChainAgentConfig) (idx : Nat)
    (cur : String) (ctx : ChainCtx) :
    (chainLoop fmt call stop pass (a :: rest) idx cur ctx).entries.head? = some cur := by
  simp only [chainLoop]
  cases hE : stepOutcome fmt call idx cur ctx a with
  | ok p =>
    obtain ⟨inp, resp⟩ := p
    rfl
  | error e =>
    cases stop <;> rfl

/-- With `stop_on_error = false`, a failing step feeds the synthetic
string `"Previous step failed: " ++ reason` (capital `P`) into the next
step. -/
theorem chainLoop_failure_entries (fmt : FmtOracle)
    (call : Nat → String → Except String Resp) (pass : Bool) :
    ∀ (agents : List ChainAgentConfig) (idx : Nat) (cur : String) (ctx : ChainCtx)
      (p j : Nat) (nm e : String),
      (chainLoop fmt call false pass agents idx cur ctx).records[p]?
          = some (.err j nm e) →
      p + 1 < agents.length →
      (chainLoop fmt call false pass agents idx cur ctx).entries[p + 1]?
        = some ("Previous step failed: " ++ e)
  | [], idx, cur, ctx, p, j, nm, e => by
    intro hrec _
    simp [chainLoop] at hrec
  | a :: rest, idx, cur, ctx, p, j, nm, e => by
    intro hrec hlt
    have ih := chainLoop_failure_entries fmt call pass rest (idx + 1)
    simp only [chainLoop] at hrec ⊢
    cases hE : stepOutcome fmt call idx cur ctx a with
    | ok q =>
      obtain ⟨inp, resp⟩ := q
      rw [hE] at hrec
      cases p with
      | zero => simp at hrec
      | succ p' =>
        simp only [List.getElem?_cons_succ] at hrec ⊢
        exact ih _ _ p' j nm e hrec (by simpa using hlt)
    | error e0 =>
      rw [hE] at hrec
      simp only [Bool.false_eq_true, if_false] at hrec ⊢
      cases p with
      | zero =>
        simp only [List.getElem?_cons_zero, Option.some_inj, StepResult.err.injEq] at hrec
        obtain ⟨-, -, h3⟩ := hrec
        subst h3
        simp only [List.getElem?_cons_succ]
        cases rest with
        | nil => simp at hlt
        | cons b rb =>
          rw [← List.head?_eq_getElem?]
          exact chainLoop_entries_head fmt call false pass b rb (idx + 1)
            ("Previous step failed: " ++ e0) ctx
      | succ p' =>
        simp only [List.getElem?_cons_succ] at hrec ⊢
        exact ih _ _ p' j nm e hrec
          (by simp only [List.length_cons] at hlt; omega)

/-- Claim C7 amended: with `stop_on_error = false` the chain visits all
`N` steps, and a failing step at index `i` makes the running input of step
`i+1` equal `"Previous step failed: " ++ reason` — with a capital `P`,
unlike the lowercase string in the claim. -/
theorem chain_visits_all_and_failure_notice (agents : List ChainAgentConfig)
    (mr : Nat) (pass : Bool) (fmt : FmtOracle)
    (call : Nat → String → Except String Resp) (init : String) (ctx0 : ChainCtx) :
    (chainTraceOf ⟨agents, mr, pass, false⟩ fmt call init ctx0).records.length
        = agents.length
    ∧ ∀ (i j : Nat) (nm e : String), i + 1 < agents.length →
        (chainTraceOf ⟨agents, mr, pass, false⟩ fmt call init ctx0).records[i]?
            = some (.err j nm e) →
        (chainTraceOf ⟨agents, mr, pass, false⟩ fmt call init ctx0).entries[i + 1]?
          = some ("Previous step failed: " ++ e) := by
  constructor
  · exact (chainLoop_length fmt call pass agents 0 init ctx0).1
  · intro i j nm e hlt hrec
    exact chainLoop_failure_entries fmt call pass agents 0 init ctx0 i j nm e hrec hlt

/-- A two-step chain whose first step fails and second step succeeds. -/
def chainCfgC7 : ChainConfig :=
  { agents := [{ name := some "a" }, { name := some "b" }] }

/-- Step oracle: step 0 raises `boom`, step 1 succeeds. -/
def callC7 : Nat → String → Except String Resp :=
  fun idx _ => if idx = 0 then .error "boom" else .ok [("content", "B")]

/-- Claim C7 counterexample: the synthetic input is
`"Previous step failed: boom"` with a capital `P`, not the claimed
`"previous step failed: boom"`. -/
theorem failure_notice_is_capitalized :
    (chainTraceOf chainCfgC7 fmtUnused callC7 "in" []).entries[1]?
      = some "Previous step failed: boom"
    ∧ some "Previous step failed: boom" ≠ some "previous step failed: boom" := by
  refine ⟨rfl, by decide⟩

/-- Witness for the amended C7 theorem on the concrete two-step chain. -/
theorem chain_visits_all_and_failure_notice_witness :
    (chainTraceOf ⟨chainCfgC7.agents, 3, true, false⟩ fmtUnused callC7 "in" []).records.length
        = chainCfgC7.agents.length
    ∧ (chainTraceOf ⟨chainCfgC7.agents, 3, true, false⟩ fmtUnused callC7 "in" []).entries[1]?
        = some ("Previous step failed: " ++ "boom") := by
  have h := chain_visits_all_and_failure_notice chainCfgC7.agents 3 true fmtUnused
    callC7 "in" []
  exact ⟨h.1, h.2 0 0 "a" "boom" (by norm_num [chainCfgC7]) rfl⟩

/-! ## Claim C2 -/

/-- Two parallel agents named `x` and `y`. -/
def pcfgX : PAgentConfig := { name := some "x" }

/-- Second parallel agent. -/
def pcfgY : PAgentConfig := { name := some "y" }

/-- Invocation oracle where `x` fails and `y` succeeds. -/
def invokeC2 : String → Except String (String × ℚ) :=
  fun nm => if nm = "y" then .ok ("Y", 1) else .error "ex"

/-- Invocation oracle where every agent fails. -/
def invokeC2AllFail : String → Except String (String × ℚ) :=
  fun _ => .error "down"

/-- Claim C2: fail-fast mode does NOT skip failed outcomes. Because
`_execute_agent` converts every exception into a failure dict, the
`isinstance(result, Exception)` filter in `_execute_fail_fast` never
rejects anything, so the first COMPLETED outcome is returned even when it
failed — and when every agent fails the collected set is a singleton
failure, not empty. Here agent `x` completes first with a failure while
`y`'s success is available, yet `[failure-of-x]` is collected; and under
an all-fail oracle the collected set is again `[failure-of-x]`, not `[]`.
This settles the claim as a code bug. -/
theorem fail_fast_returns_first_completion :
    failFastCollect invokeC2 [pcfgX, pcfgY]
      = [{ agent := "x", success := false, output := "", error := some "ex", duration := 0 }]
    ∧ (executeAgentP invokeC2 pcfgY).success = true
    ∧ failFastCollect invokeC2AllFail [pcfgX, pcfgY]
      = [{ agent := "x", success := false, output := "", error := some "down", duration := 0 }]
    ∧ failFastCollect invokeC2AllFail [pcfgX, pcfgY] ≠ [] := by
  have h3 : failFastCollect invokeC2AllFail [pcfgX, pcfgY]
      = [{ agent := "x", success := false, output := "", error := some "down",
           duration := 0 }] := rfl
  refine ⟨rfl, rfl, h3, ?_⟩
  rw [h3]
  simp

/-! ## Claim C10 -/

/-- Claim C10: under RULE_BASED routing, when no rule of any agent fires
and the configured default agent name (nonempty) matches no agent in the
list, `route` returns the structured failure
`success = False, error = "No suitable agent found"` without invoking any
agent and without touching the stats. -/
theorem route_reports_no_suitable_agent (regex : RegexOracle)
    (invoke : String → Except String (String × ℚ))
    (agents : List RouterAgentConfig) (d : String) (fb : Bool)
    (perf0 : PerfMap) (input : String) (ctx : RCtx)
    (hnm : ∀ a ∈ agents, ∀ r ∈ a.routing_rules, ruleFires regex input ctx r = false)
    (hne : ¬d.isEmpty = true)
    (hd : ∀ a ∈ agents, a.name ≠ d) :
    AgentRouter.route regex invoke ⟨agents, .rule_based, some d, fb⟩ perf0 input ctx
      = ⟨.noAgent "No suitable agent found" input, perf0, [], []⟩ := by
  have hsel : selectAgent regex ⟨agents, .rule_based, some d, fb⟩ perf0 input ctx
      = none := by
    simp only [selectAgent, ruleBasedSelection]
    have hfind : agents.find?
        (fun a => a.routing_rules.any fun r => ruleFires regex input ctx r) = none := by
      rw [List.find?_eq_none]
      intro a ha
      simp only [List.any_eq_true, not_exists]
      intro r
      simp only [not_and]
      intro hr
      simp [hnm a ha r hr]
    rw [hfind]
    simp only [getDefaultAgent]
    rw [if_neg hne, List.find?_eq_none]
    intro a ha
    simpa using hd a ha
  simp only [AgentRouter.route, hsel]

/-- Witness for C10: one keyword-guarded agent, default name `g` absent
from the list, input matching nothing. -/
theorem route_reports_no_suitable_agent_witness :
    AgentRouter.route (fun _ _ => false) (fun _ => .error "down")
        ⟨[{ name := "p", routing_rules := [{ keywords := some ["python"] }] }],
         .rule_based, some "g", true⟩ [] "unrelated" []
      = ⟨.noAgent "No suitable agent found" "unrelated", [], [], []⟩ := by
  apply route_reports_no_suitable_agent
  · intro a ha r hr
    rw [List.mem_singleton] at ha
    subst ha
    simp only [List.mem_singleton] at hr
    subst hr
    decide
  · decide
  · intro a ha
    rw [List.mem_singleton] at ha
    subst ha
    decide

/-! ## Claim C4 -/

/-- Router agent `a` with no rules. -/
def rAgentA : RouterAgentConfig := { name := "a" }

/-- Router agent `b` with no rules. -/
def rAgentB : RouterAgentConfig := { name := "b" }

/-- Two-agent router configuration with fallback enabled. -/
def rcfgC4 : RouterConfig := { agents := [rAgentA, rAgentB] }

/-- Invocation oracle where every agent fails. -/
def invokeC4 : String → Except String (String × ℚ) := fun _ => .error "down"

/-- Claim C4 counterexample: with both agents failing, `route` attempts
`a` (primary) and `b` (fallback) but records only ONE stats update — the
primary's; the failed fallback attempt on `b` records none. -/
theorem fallback_failure_missing_stats_update :
    (AgentRouter.route (fun _ _ => false) invokeC4 rcfgC4 [] "x" []).attempts
      = ["a", "b"]
    ∧ (AgentRouter.route (fun _ _ => false) invokeC4 rcfgC4 [] "x" []).updates
      = [("a", false, 0)]
    ∧ ∀ u ∈ [(("a" : String), false, (0 : ℚ))], u.1 ≠ "b" := by
  refine ⟨rfl, rfl, by decide⟩

/-- Every stats update produced by the fallback loop belongs to a
successful invocation of one of the fallback agents. -/
theorem tryFallbackLoop_updates_ok (invoke : String → Except String (String × ℚ)) :
    ∀ (fbs : List RouterAgentConfig) (perf : PerfMap) (u : String × Bool × ℚ),
      u ∈ (tryFallbackLoop invoke fbs perf).2.2.2 →
      (∃ out, invoke u.1 = .ok (out, u.2.2)) ∧ u.2.1 = true
        ∧ ∃ a ∈ fbs, u.1 = a.name
  | [], _, u, hu => by simp [tryFallbackLoop] at hu
  | a :: rest, perf, u, hu => by
    simp only [tryFallbackLoop] at hu
    revert hu
    cases hinv : invoke a.name with
    | ok p =>
      obtain ⟨out, dur⟩ := p
      intro hu
      simp only [List.mem_singleton] at hu
      subst hu
      exact ⟨⟨out, hinv⟩, rfl, a, List.mem_cons_self a rest, rfl⟩
    | error e0 =>
      intro hu
      obtain ⟨h1, h2, b, hb, h3⟩ :=
        tryFallbackLoop_updates_ok invoke rest perf u hu
      exact ⟨h1, h2, b, List.mem_cons_of_mem a hb, h3⟩

/-- Per attempted fallback agent: a successful invocation records exactly
one update with its duration; a failed one records none. -/
theorem tryFallbackLoop_filter_updates (invoke : String → Except String (String × ℚ)) :
    ∀ (fbs : List RouterAgentConfig) (perf : PerfMap) (nm : String),
      nm ∈ (tryFallbackLoop invoke fbs perf).2.2.1 →
      ((tryFallbackLoop invoke fbs perf).2.2.2.filter fun u => u.1 == nm)
        = match invoke nm with
          | .ok (_, dur) => [(nm, true, dur)]
          | .error _ => []
  | [], _, nm, hnm => by simp [tryFallbackLoop] at hnm
  | a :: rest, perf, nm, hnm => by
    simp only [tryFallbackLoop] at hnm ⊢
    revert hnm
    cases hinv : invoke a.name with
    | ok p =>
      obtain ⟨out, dur⟩ := p
      intro hnm
      simp only [List.mem_singleton] at hnm
      subst hnm
      simp [hinv]
    | error e0 =>
      intro hnm
      simp only [List.mem_cons] at hnm
      rcases hnm with rfl | hnm
      · rw [hinv, List.filter_eq_nil_iff]
        intro u hu
        obtain ⟨⟨out, hok⟩, -, -⟩ := tryFallbackLoop_updates_ok invoke rest perf u hu
        intro hbeq
        have hu1 : u.1 = a.name := by simpa using hbeq
        rw [hu1] at hok
        rw [hok] at hinv
        cases hinv
      · exact tryFallbackLoop_filter_updates invoke rest perf nm hnm

/-- Claim C4 amended: for every route call with fallback enabled whose
selection picked a primary agent, the primary attempt records exactly one
stats update — `(name, True, duration)` on success, `(name, False, 0)` on
failure — a SUCCESSFUL fallback attempt records exactly one update
`(name, True, duration)`, and a FAILED fallback attempt records no update
at all. -/
theorem stats_updates_on_fallback (regex : RegexOracle)
    (invoke : String → Except String (String × ℚ)) (cfg : RouterConfig)
    (perf0 : PerfMap) (input : String) (ctx : RCtx)
    (sel : RouterAgentConfig)
    (hsel : selectAgent regex cfg perf0 input ctx = some sel)
    (hfb : cfg.enable_fallback = true) :
    (∀ out dur, invoke sel.name = .ok (out, dur) →
        ((AgentRouter.route regex invoke cfg perf0 input ctx).updates.filter
            fun u => u.1 == sel.name) = [(sel.name, true, dur)])
    ∧ (∀ e, invoke sel.name = .error e →
        ((AgentRouter.route regex invoke cfg perf0 input ctx).updates.filter
            fun u => u.1 == sel.name) = [(sel.name, false, 0)])
    ∧ ∀ nm, nm ∈ (AgentRouter.route regex invoke cfg perf0 input ctx).attempts →
        nm ≠ sel.name →
        (∀ out dur, invoke nm = .ok (out, dur) →
            ((AgentRouter.route regex invoke cfg perf0 input ctx).updates.filter
                fun u => u.1 == nm) = [(nm, true, dur)])
        ∧ ∀ e2, invoke nm = .error e2 →
            ((AgentRouter.route regex invoke cfg perf0 input ctx).updates.filter
                fun u => u.1 == nm) = [] := by
  cases hinv : invoke sel.name with
  | ok p =>
    obtain ⟨out, dur⟩ := p
    have hT : AgentRouter.route regex invoke cfg perf0 input ctx
        = ⟨.routed sel.name out false none, updateStats perf0 sel.name true dur,
           [sel.name], [(sel.name, true, dur)]⟩ := by
      simp only [AgentRouter.route, hsel, hinv]
    refine ⟨?_, ?_, ?_⟩
    · intro out2 dur2 hok
      injection hok with hok
      injection hok with h1 h2
      subst h1
      subst h2
      rw [hT]
      simp
    · intro e2 herr
      exact Except.noConfusion herr
    · intro nm hmem hne
      rw [hT] at hmem
      simp at hmem
      exact absurd hmem hne
  | error e0 =>
    have hups := tryFallbackLoop_updates_ok invoke
      (cfg.agents.filter fun a => a.name != sel.name)
      (updateStats perf0 sel.name false 0)
    have hflt := tryFallbackLoop_filter_updates invoke
      (cfg.agents.filter fun a => a.name != sel.name)
      (updateStats perf0 sel.name false 0)
    rcases hT : tryFallbackLoop invoke
        (cfg.agents.filter fun a => a.name != sel.name)
        (updateStats perf0 sel.name false 0) with ⟨r, p2, ats, ups⟩
    rw [hT] at hups hflt
    have hshape :
        (AgentRouter.route regex invoke cfg perf0 input ctx).attempts = sel.name :: ats
        ∧ (AgentRouter.route regex invoke cfg perf0 input ctx).updates
            = (sel.name, false, 0) :: ups := by
      simp only [AgentRouter.route, hsel, hinv, hfb, if_true, hT]
      cases r with
      | none => exact ⟨rfl, rfl⟩
      | some pr =>
        obtain ⟨nm0, out0⟩ := pr
        exact ⟨rfl, rfl⟩
    refine ⟨?_, ?_, ?_⟩
    · intro out2 dur2 hok
      exact Except.noConfusion hok
    · intro e2 herr
      rw [hshape.2]
      rw [List.filter_cons_of_pos (by simp)]
      rw [List.filter_eq_nil_iff.mpr, List.cons.injEq]
      · exact ⟨rfl, rfl⟩
      · intro u hu
        obtain ⟨-, -, b, hb, hname⟩ := hups u hu
        have hbne : (b.name != sel.name) = true := (List.mem_filter.mp hb).2
        simp only [bne_iff_ne, ne_eq] at hbne
        simp [hname, hbne]
    · intro nm hmem hne
      rw [hshape.1] at hmem
      rw [hshape.2]
      rcases List.mem_cons.mp hmem with rfl | hmem2
      · exact absurd rfl hne
      constructor
      · intro out2 dur2 hok
        rw [List.filter_cons_of_neg (by simp [Ne.symm hne])]
        have h := hflt nm hmem2
        rw [hok] at h
        exact h
      · intro e2 herr
        rw [List.filter_cons_of_neg (by simp [Ne.symm hne])]
        have h := hflt nm hmem2
        rw [herr] at h
        exact h

/-- Two-agent invocation oracle where the primary `a` fails and the
fallback `b` succeeds with duration 1. -/
def invokeC4w : String → Except String (String × ℚ) :=
  fun nm => if nm = "b" then .ok ("B", 1) else .error "down"

/-- Witness for the amended C4 theorem: primary `a` records its failure
update, successful fallback `b` records its success update. -/
theorem stats_updates_on_fallback_witness :
    ((AgentRouter.route (fun _ _ => false) invokeC4w rcfgC4 [] "x" []).updates.filter
        fun u => u.1 == "a") = [("a", false, 0)]
    ∧ ((AgentRouter.route (fun _ _ => false) invokeC4w rcfgC4 [] "x" []).updates.filter
        fun u => u.1 == "b") = [("b", true, 1)] := by
  have h := stats_updates_on_fallback (fun _ _ => false) invokeC4w rcfgC4 [] "x" []
    rAgentA rfl rfl
  exact ⟨h.2.1 "down" rfl, (h.2.2 "b" (by decide) (by decide)).1 "B" 1 rfl⟩

/-! ## Claim C8 -/

/-- Spec-side selection contract: the maximum-scoring element, ties broken
by the first-encountered one. -/
def specFirstArgmax {α : Type} (f : α → ℚ) : List α → Option α
  | [] => none
  | a :: rest =>
    match specFirstArgmax f rest with
    | none => some a
    | some b => if f b > f a then some b else some a

/-- Unfolding equation: an empty tail yields the head. -/
theorem specFirstArgmax_cons_none {α : Type} (f : α → ℚ) (a : α) {l : List α}
    (h : specFirstArgmax f l = none) :
    specFirstArgmax f (a :: l) = some a := by
  show (match specFirstArgmax f l with
        | none => some a
        | some b => if f b > f a then some b else some a) = some a
  rw [h]

/-- Unfolding equation: a nonempty tail compares its best against the
head, strict improvement required to displace the head. -/
theorem specFirstArgmax_cons_some {α : Type} (f : α → ℚ) (a : α) {l : List α}
    {b : α} (h : specFirstArgmax f l = some b) :
    specFirstArgmax f (a :: l) = if f b > f a then some b else some a := by
  show (match specFirstArgmax f l with
        | none => some a
        | some b => if f b > f a then some b else some a)
      = if f b > f a then some b else some a
  rw [h]

/-- `specFirstArgmax` answers on nonempty lists. -/
theorem specFirstArgmax_cons_isSome {α : Type} (f : α → ℚ) (a : α) (l : List α) :
    (specFirstArgmax f (a :: l)).isSome = true := by
  rcases hs : specFirstArgmax f l with _ | b
  · rw [specFirstArgmax_cons_none f a hs]
    rfl
  · rw [specFirstArgmax_cons_some f a hs]
    by_cases hba : f b > f a
    · rw [if_pos hba]
      rfl
    · rw [if_neg hba]
      rfl

/-- `specFirstArgmax` is `none` only on the empty list. -/
theorem specFirstArgmax_eq_none {α : Type} (f : α → ℚ) :
    ∀ l : List α, specFirstArgmax f l = none → l = [] := by
  intro l h
  cases l with
  | nil => rfl
  | cons a t =>
    have := specFirstArgmax_cons_isSome f a t
    rw [h] at this
    cases this

/-- The element picked by `specFirstArgmax` scores at least every member
of the list. -/
theorem specFirstArgmax_le {α : Type} (f : α → ℚ) :
    ∀ (l : List α) (c : α), specFirstArgmax f l = some c → ∀ x ∈ l, f x ≤ f c
  | [], c, h => by cases h
  | a :: t, c, h => by
    intro x hx
    rcases hs : specFirstArgmax f t with _ | d
    · rw [specFirstArgmax_cons_none f a hs] at h
      injection h with h
      subst h
      have ht : t = [] := specFirstArgmax_eq_none f t hs
      subst ht
      rcases List.mem_singleton.mp hx with rfl
      exact le_refl _
    · rw [specFirstArgmax_cons_some f a hs] at h
      have hle := specFirstArgmax_le f t d hs
      by_cases hda : f d > f a
      · rw [if_pos hda] at h
        injection h with h
        subst h
        rcases List.mem_cons.mp hx with rfl | hx2
        · exact le_of_lt hda
        · exact hle x hx2
      · rw [if_neg hda] at h
        injection h with h
        subst h
        rcases List.mem_cons.mp hx with rfl | hx2
        · exact le_refl _
        · exact (hle x hx2).trans (not_lt.mp hda)

/-- `specFirstArgmax` on the empty list (named form for rewriting). -/
theorem specFirstArgmax_nil' {α : Type} (f : α → ℚ) :
    specFirstArgmax f ([] : List α) = none := rfl

/-- The running-best fold of `_adaptive_selection`, started from a seeded
best, computes the first-encountered maximum (strict improvement only, so
the earliest maximal element wins). -/
theorem foldBest_from_some {α : Type} (f : α → ℚ) :
    ∀ (l : List α) (b : α),
      (l.foldl (fun (acc : Option α × ℚ) a =>
          if f a > acc.2 then (some a, f a) else acc) (some b, f b)).1
        = specFirstArgmax f (b :: l)
  | [], b => rfl
  | a :: t, b => by
    simp only [List.foldl_cons]
    by_cases hab : f a > f b
    · rw [if_pos hab, foldBest_from_some f t a]
      rcases hs : specFirstArgmax f (a :: t) with _ | c
      · exact absurd hs
          (Option.isSome_iff_ne_none.mp (specFirstArgmax_cons_isSome f a t))
      · have hcge : f a ≤ f c :=
          specFirstArgmax_le f (a :: t) c hs a (List.mem_cons_self a t)
        rw [specFirstArgmax_cons_some f b hs, if_pos (lt_of_lt_of_le hab hcge)]
    · rw [if_neg hab, foldBest_from_some f t b]
      have hba : f a ≤ f b := not_lt.mp hab
      rcases hs : specFirstArgmax f t with _ | d
      · have ht : t = [] := specFirstArgmax_eq_none f t hs
        subst ht
        have h0 : specFirstArgmax f ([] : List α) = none := rfl
        have h1 : specFirstArgmax f [a] = some a :=
          specFirstArgmax_cons_none f a h0
        rw [specFirstArgmax_cons_none f b h0,
          specFirstArgmax_cons_some f b h1, if_neg hab]
      · have hat := specFirstArgmax_cons_some f a hs
        by_cases hda : f d > f a
        · rw [if_pos hda] at hat
          rw [specFirstArgmax_cons_some f b hs, specFirstArgmax_cons_some f b hat]
        · rw [if_neg hda] at hat
          rw [specFirstArgmax_cons_some f b hs, specFirstArgmax_cons_some f b hat,
            if_neg hab, if_neg (not_lt.mpr ((not_lt.mp hda).trans hba))]

/-- A successful association-list lookup locates a member. -/
theorem lookup_mem {β : Type} :
    ∀ {l : List (String × β)} {k : String} {v : β},
      List.lookup k l = some v → (k, v) ∈ l
  | [], _, _, h => by cases h
  | (k', v') :: rest, k, v, h => by
    rw [List.lookup_cons] at h
    cases hk : k == k' with
    | true =>
      rw [hk] at h
      have h2 : some v' = some v := h
      injection h2 with h2
      subst h2
      have hkk : k = k' := by simpa using hk
      subst hkk
      exact List.mem_cons_self _ _
    | false =>
      rw [hk] at h
      have h2 : List.lookup k rest = some v := h
      exact List.mem_cons_of_mem _ (lookup_mem h2)

/-- Every ADAPTIVE score beats the fold's `-1` seed when the recorded
stats are well-formed (nonnegative rate and duration, as `_update_stats`
guarantees). -/
theorem adaptiveScore_gt_neg_one (perf : PerfMap)
    (hstats : ∀ p ∈ perf, 0 ≤ p.2.success_rate ∧ 0 ≤ p.2.avg_duration)
    (nm : String) : -1 < adaptiveScore perf nm := by
  rcases hl : List.lookup nm perf with _ | s
  · have hval : adaptiveScore perf nm
        = (1/2 : ℚ) * (7/10) + (1 / ((10 : ℚ) + 1)) * (3/10) := by
      unfold adaptiveScore
      rw [hl]
    rw [hval]
    norm_num
  · have hval : adaptiveScore perf nm
        = s.success_rate * (7/10) + (1 / (s.avg_duration + 1)) * (3/10) := by
      unfold adaptiveScore
      rw [hl]
    rw [hval]
    have hmem := lookup_mem hl
    obtain ⟨hsr, had⟩ := hstats _ hmem
    have h1 : 0 < s.avg_duration + 1 := by linarith
    have h2 : 0 < 1 / (s.avg_duration + 1) := by positivity
    have h3 : 0 ≤ s.success_rate * (7/10) := mul_nonneg hsr (by norm_num)
    have h4 : 0 < (1 / (s.avg_duration + 1)) * (3/10) := mul_pos h2 (by norm_num)
    linarith

/-- The ADAPTIVE candidate list of a nonempty agent list is nonempty. -/
theorem adaptiveCandidates_ne_nil (regex : RegexOracle)
    (agents : List RouterAgentConfig) (input : String) (hne : agents ≠ []) :
    adaptiveCandidates regex agents input ≠ [] := by
  unfold adaptiveCandidates
  by_cases hb : (agents.filter fun a => matchesRules regex input a).isEmpty
  · rw [if_pos hb]
    exact hne
  · rw [if_neg hb]
    intro h
    rw [h] at hb
    exact hb rfl

set_option maxHeartbeats 2000000

/-- Claim C8: under ADAPTIVE routing each candidate scores
`success_rate * 0.7 + (1 / (avg_duration + 1)) * 0.3` (priors 0.5 and 10
for unseen agents), the selection is the maximum-scoring candidate with
ties broken by the first-encountered one, a candidate with stored
`success_rate = 1` and `avg_duration = 0` scores `1`, and an unseen
candidate scores `0.5*0.7 + (1/11)*0.3 = 83/220`. -/
theorem adaptive_selection_first_argmax (regex : RegexOracle)
    (agents : List RouterAgentConfig) (perf : PerfMap) (d : Option String)
    (input : String) (ctx : RCtx)
    (hstats : ∀ p ∈ perf, 0 ≤ p.2.success_rate ∧ 0 ≤ p.2.avg_duration)
    (hne : agents ≠ []) :
    adaptiveSelection regex agents perf d input ctx
      = specFirstArgmax (fun a => adaptiveScore perf a.name)
          (adaptiveCandidates regex agents input)
    ∧ (∀ (perf2 : PerfMap) (nm : String) (s : PerformanceStats),
        List.lookup nm perf2 = some s → s.success_rate = 1 → s.avg_duration = 0 →
        adaptiveScore perf2 nm = 1)
    ∧ ∀ (perf2 : PerfMap) (nm : String),
        List.lookup nm perf2 = none → adaptiveScore perf2 nm = 83/220 := by
  refine ⟨?_, ?_, ?_⟩
  · have hgt := adaptiveScore_gt_neg_one perf hstats
    simp only [adaptiveSelection]
    rcases hcand : adaptiveCandidates regex agents input with _ | ⟨c, cs⟩
    · exact absurd hcand (adaptiveCandidates_ne_nil regex agents input hne)
    · simp only [List.foldl_cons]
      rw [if_pos (hgt c.name)]
      have hfold : (cs.foldl (fun (acc : Option RouterAgentConfig × ℚ) a =>
            if adaptiveScore perf a.name > acc.2
            then (some a, adaptiveScore perf a.name) else acc)
            (some c, adaptiveScore perf c.name)).1
          = specFirstArgmax (fun a => adaptiveScore perf a.name) (c :: cs) :=
        foldBest_from_some (fun a => adaptiveScore perf a.name) cs c
      rw [hfold]
      rcases hs : specFirstArgmax (fun a => adaptiveScore perf a.name) (c :: cs)
          with _ | c'
      · exact absurd hs
          (Option.isSome_iff_ne_none.mp (specFirstArgmax_cons_isSome
            (fun a => adaptiveScore perf a.name) c cs))
      · rw [hs]
  · intro perf2 nm s hl h1 h2
    have hval : adaptiveScore perf2 nm
        = s.success_rate * (7/10) + (1 / (s.avg_duration + 1)) * (3/10) := by
      unfold adaptiveScore
      rw [hl]
    rw [hval, h1, h2]
    norm_num
  · intro perf2 nm hl
    have hval : adaptiveScore perf2 nm
        = (1/2 : ℚ) * (7/10) + (1 / ((10 : ℚ) + 1)) * (3/10) := by
      unfold adaptiveScore
      rw [hl]
    rw [hval]
    norm_num

/-- Stored stats of a perfect agent: full success rate, zero duration. -/
def statsC8 : PerformanceStats :=
  { total_requests := 1, successful_requests := 1, failed_requests := 0,
    total_duration := 0, success_rate := 1, avg_duration := 0 }

/-- Router stats map with one recorded agent. -/
def perfC8 : PerfMap := [("fast", statsC8)]

/-- Two rule-free candidate agents. -/
def agentsC8 : List RouterAgentConfig := [{ name := "fast" }, { name := "good" }]

/-- Witness for C8 at a concrete stats map and agent list. -/
theorem adaptive_selection_first_argmax_witness :
    adaptiveSelection (fun _ _ => false) agentsC8 perfC8 none "task" []
      = specFirstArgmax (fun a => adaptiveScore perfC8 a.name)
          (adaptiveCandidates (fun _ _ => false) agentsC8 "task")
    ∧ adaptiveScore perfC8 "fast" = 1
    ∧ adaptiveScore perfC8 "unseen" = 83/220 := by
  have h := adaptive_selection_first_argmax (fun _ _ => false) agentsC8 perfC8 none
    "task" []
    (by
      intro p hp
      have hp2 : p = ("fast", statsC8) := by simpa [perfC8] using hp
      subst hp2
      refine ⟨?_, ?_⟩ <;> norm_num [statsC8])
    (by simp [agentsC8])
  exact ⟨h.1, h.2.1 perfC8 "fast" statsC8 rfl rfl rfl, h.2.2 perfC8 "unseen" rfl⟩

end BinG
